import Mathlib

/-!
Verification of the backilli storage-backend layer: a shallow embedding of
the remote (Yandex S3) client and the local filesystem client, with the
chunked-upload strategy and the path/key normalizer, together with theorems
settling the specified properties.

File contents are modelled as `List Nat` (one `Nat` per byte); paths and
keys as `String` (or `List Char` where Go indexes bytes).  Go functions
returning `error` become `Option`/`Except` results; a Go panic is the
`none` of an `Option` result.
-/

namespace Backilli

/-- The split threshold: `var limit int64 = 536870912` in the yandex client. -/
def limit : Nat := 536870912

/-! ## Remote backend: Write dispatch

`Write` stats the source and chooses between `putOnce` and
`putSplitedFile` by the test `stat.Size()/limit > 0`. -/

/-- Which upload strategy `Write` picks. -/
inductive WritePath where
  | once
  | splitted
deriving DecidableEq, Repr

/-- The dispatch test of `YandexClient.Write`: `if stat.Size()/limit > 0`
takes the split path, otherwise `putOnce`. -/
def writeDispatch (size : Nat) : WritePath :=
  if size / limit > 0 then .splitted else .once

/-! ## Remote backend: key normalizer

`put` builds the object key from the configured root and the destination:
it reads the root's last byte (panicking on an empty root), strips it when
it is `0x5c` or `0x2f`, rewrites every `0x5c` byte of the destination to
`0x2f`, and concatenates root, the separator `"/"` and the rewritten
destination.  All characters involved are ASCII, so bytes are modelled as
`Char`s. -/

/-- `bytes.ReplaceAll([]byte(dst), []byte{0x5c}, []byte{0x2f})`. -/
def replaceBackslash (s : List Char) : List Char :=
  s.map fun c => if c = '\\' then '/' else c

/-- The key construction inside `put` (lines 159–167): `none` models the
index-out-of-range panic of `cloudRoot[len(cloudRoot)-1]` on an empty root. -/
def makeKey (cloudRoot dst : String) : Option String :=
  match cloudRoot.data.getLast? with
  | none => none
  | some c =>
      let r := if c = '\\' ∨ c = '/' then cloudRoot.data.dropLast else cloudRoot.data
      some ⟨r ++ '/' :: replaceBackslash dst.data⟩

/-- The normalizer as the spec words it: strip one trailing separator
(`/` or `\`) from the root if present, replace every backslash of the
destination with a forward slash, and concatenate root, a single `/`, and
the converted destination. -/
def specNormalize (root dst : String) : String :=
  let r := if root.data.getLast? = some '/' ∨ root.data.getLast? = some '\\' then
      root.data.dropLast
    else root.data
  ⟨r ++ '/' :: (dst.data.map fun c => if c = '\\' then '/' else c)⟩

/-! ## Remote backend: construction and endpoint resolution -/

/-- `aws.Endpoint` as far as the resolver populates it. -/
structure Endpoint where
  partitionID : String
  url : String
  signingRegion : String
deriving DecidableEq, Repr

/-- `s3.ServiceID` of the AWS SDK. -/
def s3ServiceID : String := "S3"

/-- `yandexResolver`: the custom endpoint resolver handed to the SDK. -/
def yandexResolver (service region : String) : Except String Endpoint :=
  if service = s3ServiceID ∧ region = "ru-central1" then
    .ok ⟨"yc", "https://storage.yandexcloud.net", "ru-central1"⟩
  else
    .error "unknown endpoint requested"

/-- `unit.ClientConfig`. -/
structure ClientConfig where
  region : String
  keyId : String
  keySecret : String
  bucketName : String
  root : String

/-- The constructed `YandexClient` state, with the endpoint its session is
bound to. -/
structure YandexClient where
  bucketName : String
  cloudSep : String
  cloudRoot : String
  endpoint : Endpoint

/-- `NewClient`: stores root, bucket and the separator `"/"` unchanged,
with no validation of the root.  Modelled from the spec: the SDK session
construction (`config.LoadDefaultConfig` with the custom resolver) is
external code; per spec §4.3 construction resolves the endpoint for the
S3 service and the configured region, and a resolver failure fails
construction with `EndpointResolutionError`. -/
def NewClient (conf : ClientConfig) : Except String YandexClient :=
  match yandexResolver s3ServiceID conf.region with
  | .error e => .error e
  | .ok ep => .ok ⟨conf.bucketName, "/", conf.root, ep⟩

/-! ## Remote backend: chunked upload

`putSplitedFile` allocates one buffer of `limit` bytes (zero-initialised by
`make`), opens the source once and loops `writeAndPutPartOfFiles` with the
part index starting at 1.  Each iteration reads up to `limit` bytes into
the reusable buffer, creates the temp file `zip.%03d`, writes the WHOLE
buffer to it (`fd.Write(buf)`, not `buf[:n]`), uploads the temp file under
the destination key joined with its base name, and deletes it.  Reading a
regular file returns `min limit remaining` bytes, and `(0, io.EOF)` once
the file is exhausted, which stops the loop. -/

/-- `fmt.Sprintf("%03d", i)`: decimal, zero-padded to width 3. -/
def pad3 (i : Nat) : String :=
  let s := toString i
  if s.length < 3 then ⟨List.replicate (3 - s.length) '0'⟩ ++ s else s

/-- Base name of the part's temp file: `fmt.Sprintf("zip.%03d", part)`. -/
def partName (i : Nat) : String := "zip." ++ pad3 i

/-- Modelled from the spec: `fs.GetFullPath` (package `pkg/fs`, not in the
sources at hand) joins path components with a `/` separator; per spec §4.4
step 4 the part's key is the original destination key joined with the temp
file's base name. -/
def getFullPath (a b : String) : String := a ++ "/" ++ b

/-- The part-upload loop of `putSplitedFile`/`writeAndPutPartOfFiles`,
returning the `(key, uploaded bytes)` pairs in upload order.  `remaining`
is the unread tail of the source, `buf` the reusable buffer (length
`limit` throughout), `i` the part index.  Each part's bytes are the whole
buffer after the read: the fresh chunk followed by stale bytes of the
previous iteration. -/
def splitUploads (dst : String) (remaining buf : List Nat) (i : Nat) :
    List (String × List Nat) :=
  if h : remaining = [] then []
  else
    let chunk := remaining.take limit
    let buf' := chunk ++ buf.drop chunk.length
    (getFullPath dst (partName i), buf') ::
      splitUploads dst (remaining.drop limit) buf' (i + 1)
termination_by remaining.length
decreasing_by
  simp only [List.length_drop]
  have : 0 < remaining.length := List.length_pos.mpr h
  have hl : 0 < limit := by decide
  omega

/-- `putSplitedFile`: buffer `make([]byte, limit)` (all zero), part index
starting at 1. -/
def putSplitedFile (content : List Nat) (dst : String) : List (String × List Nat) :=
  splitUploads dst content (List.replicate limit 0) 1

/-! ## Remote backend: Read

After a successful `GetObject`, the body-draining loop appends `buf[:num]`
to the accumulator while `num > 0` and breaks as soon as a read returns no
bytes — whether with `io.EOF` or with any other error — and the function
returns `buffer.Bytes(), nil` unconditionally.  The body is modelled as
the chunks it successfully delivers followed by how it ends. -/

/-- How the response body terminates after its successful chunks. -/
inductive BodyEnd where
  | eof
  | transportError
deriving DecidableEq, Repr

/-- The body-draining loop of `YandexClient.Read` (lines 63–74): folds the
delivered chunks into the buffer and, at the terminal read (`num = 0`),
breaks and returns the accumulated bytes with a `nil` error — the
terminal condition is never consulted for the returned error. -/
def remoteReadLoop : List (List Nat) → BodyEnd → List Nat → List Nat × Option String
  | [], _, acc => (acc, none)
  | c :: cs, e, acc => remoteReadLoop cs e (acc ++ c)

/-- `YandexClient.Read` after a successful `GetObject`. -/
def remoteRead (chunks : List (List Nat)) (ending : BodyEnd) : List Nat × Option String :=
  remoteReadLoop chunks ending []

/-! ## Remote backend: Ls and Remove -/

/-- One object of a `ListObjectsV2` response, as far as `Ls` consumes it. -/
structure S3Object where
  key : String
  lastModified : Nat
deriving DecidableEq, Repr

/-- One `unit.File` listing entry (name and modification date). -/
structure FileEntry where
  name : String
  date : Nat
deriving DecidableEq, Repr

/-- `YandexClient.Ls` on a successful listing: split each key on `/`,
take the final segment, and keep the entry only when that segment is
nonempty. -/
def remoteLs (contents : List S3Object) : List FileEntry :=
  contents.filterMap fun o =>
    let name := (o.key.splitOn "/").getLastD ""
    if name = "" then none else some ⟨name, o.lastModified⟩

/-- The final `/`-separated segment of a key. -/
def lastSegment (key : String) : String := (key.splitOn "/").getLastD ""

/-- A flat model of a bucket (or of a local tree) as the keys it holds. -/
abbrev Store := List String

/-- Modelled from the spec: the S3 `DeleteObject` call deletes the key and
"absence of the object is not treated as an error by the underlying call"
(spec §4.3); `YandexClient.Remove` passes its result through. -/
def remoteRemove (bucket : Store) (key : String) : Store × Option String :=
  (bucket.filter fun k => k ≠ key, none)

/-- Modelled from the spec and Go's documented `os.RemoveAll` semantics:
`LocalClient.Remove` is exactly `os.RemoveAll(path)`, which deletes the
path and anything under it and returns `nil` when the path is absent. -/
def localRemove (tree : Store) (path : String) : Store × Option String :=
  (tree.filter fun k => ¬ (k = path ∨ (path ++ "/").isPrefixOf k), none)

/-! ## Local backend: Ls -/

/-- What `os.Stat` finds at the listed path. -/
inductive PathKind where
  | missing
  | file
  | directory (entries : List FileEntry)

/-- The errors `LocalClient.Ls` returns. -/
inductive LsError where
  | statError
  | notADirectory
deriving DecidableEq, Repr

/-- `LocalClient.Ls`: fails when `os.Stat` fails, fails with
`"file is not a directory"` when the path is not a directory, and
otherwise returns one entry per direct child. -/
def localLs : PathKind → Except LsError (List FileEntry)
  | .missing => .error .statError
  | .file => .error .notADirectory
  | .directory entries => .ok entries

/-! ## Local backend: Write

`LocalClient.Write` creates the root and the destination's parent if
absent, then runs the pre-existing-file check
`_, err = os.Stat(fpf); if os.IsExist(err) { os.RemoveAll(fpf) }`.
`os.Stat` returns a `nil` error when the file exists and an
`ErrNotExist`-wrapping error when it does not, and `os.IsExist` is true
only for `ErrExist`-wrapping errors — so the removal branch is modelled
through both Go predicates.  The copy loop then opens the destination
with `O_CREATE|O_WRONLY` (no truncation), reads the source in 4096-byte
blocks and writes the WHOLE buffer each time (`fd.Write(buf)`, not
`buf[:n]`). -/

/-- The classified Go error values relevant to `os.Stat` here. -/
inductive GoError where
  | notExist
  | exist
deriving DecidableEq, Repr

/-- `os.Stat`'s error on a path: `nil` when it exists, `ErrNotExist`
otherwise. -/
def osStatError (pathExists : Bool) : Option GoError :=
  if pathExists then none else some .notExist

/-- `os.IsExist`: true exactly on `ErrExist`-wrapping errors. -/
def osIsExist : Option GoError → Bool
  | some .exist => true
  | _ => false

/-- The local write buffer size: `var bufferOffset int64 = 4096`. -/
def blockSize : Nat := 4096

/-- The copy loop of `LocalClient.Write`: at each iteration reads
`min blockSize remaining` bytes into the reusable zero-initialised buffer
and writes the whole buffer; stops at the `(0, io.EOF)` read.  Returns the
byte sequence written to the destination (a whole buffer per nonempty
read). -/
def localWriteBlocks (remaining buf : List Nat) : List Nat :=
  if h : remaining = [] then []
  else
    let chunk := remaining.take blockSize
    let buf' := chunk ++ buf.drop chunk.length
    buf' ++ localWriteBlocks (remaining.drop blockSize) buf'
termination_by remaining.length
decreasing_by
  simp only [List.length_drop]
  have : 0 < remaining.length := List.length_pos.mpr h
  have hb : 0 < blockSize := by decide
  omega

/-- `LocalClient.Write`'s effect on the destination file: the pre-existing
content (`none` when the destination is absent) survives the
`os.IsExist` check, the destination is opened without truncation, and the
written bytes overwrite it from offset 0, any longer tail remaining. -/
def localWrite (src : List Nat) (oldDst : Option (List Nat)) : List Nat :=
  let afterCheck := if osIsExist (osStatError oldDst.isSome) then none else oldDst
  let written := localWriteBlocks src (List.replicate blockSize 0)
  written ++ (afterCheck.getD []).drop written.length

/-! ## Local backend: Read

`LocalClient.Read` allocates `res` of the file's size, reads the file in
2048-byte blocks into a scratch buffer, copies `buffer[:n]` to
`res[offs:offs+n]` and advances `offs` by `len(buffer)` = 2048 (not by
`n`); the `(0, io.EOF)` read breaks the loop. -/

/-- The read buffer size of `LocalClient.Read`. -/
def readBlockSize : Nat := 2048

/-- `res[offs+i] = chunk[i]` for `i < chunk.length`. -/
def writeAt (res : List Nat) (offs : Nat) (chunk : List Nat) : List Nat :=
  res.take offs ++ chunk ++ res.drop (offs + chunk.length)

/-- The read loop of `LocalClient.Read`. -/
def localReadLoop (remaining res : List Nat) (offs : Nat) : List Nat :=
  if h : remaining = [] then res
  else
    let chunk := remaining.take readBlockSize
    localReadLoop (remaining.drop readBlockSize) (writeAt res offs chunk)
      (offs + readBlockSize)
termination_by remaining.length
decreasing_by
  simp only [List.length_drop]
  have : 0 < remaining.length := List.length_pos.mpr h
  have hb : 0 < readBlockSize := by decide
  omega

/-- `LocalClient.Read` of a file with the given content. -/
def localRead (file : List Nat) : List Nat :=
  localReadLoop file (List.replicate file.length 0) 0

/-! ## Helper lemmas -/

/-- A source that fits in one block is written as itself followed by the
stale tail of the buffer. -/
theorem localWriteBlocks_small (xs buf : List Nat) (h : xs ≠ [])
    (hlen : xs.length ≤ blockSize) :
    localWriteBlocks xs buf = xs ++ buf.drop xs.length := by
  rw [localWriteBlocks, dif_neg h]
  have ht : xs.take blockSize = xs := List.take_of_length_le hlen
  have hd : xs.drop blockSize = [] := List.drop_eq_nil_of_le hlen
  simp only [ht, hd]
  rw [localWriteBlocks, dif_pos rfl]
  simp

/-- The destination content `LocalClient.Write` produces from the one-byte
source `[7]` on a fresh destination. -/
theorem localWrite_single7 :
    localWrite [7] none = 7 :: List.replicate 4095 0 := by
  unfold localWrite
  rw [localWriteBlocks_small [7] _ (by simp) (by norm_num [blockSize])]
  have hdrop : (List.replicate blockSize (0 : Nat)).drop [7].length =
      List.replicate 4095 0 := by
    rw [blockSize, List.drop_replicate]
    norm_num
  rw [hdrop]
  simp only [osStatError, osIsExist, Option.isSome_none, Bool.false_eq_true,
    if_false, ite_self, Option.getD_none, List.drop_nil, List.append_nil,
    List.singleton_append]

/-- The padded 4096-byte destination differs from the one-byte source. -/
theorem pad_ne_single : 7 :: List.replicate 4095 0 ≠ [7] := by
  intro hc
  have h := congrArg List.length hc
  simp only [List.length_cons, List.length_replicate, List.length_nil] at h
  omega

/-- The read loop of `LocalClient.Read` fills `res` with `remaining` from
offset `offs` on, when the sizes line up as `Read` arranges them. -/
theorem localReadLoop_fills (n : Nat) :
    ∀ (remaining res : List Nat) (offs : Nat), remaining.length ≤ n →
      offs + remaining.length = res.length →
      localReadLoop remaining res offs = res.take offs ++ remaining := by
  induction n with
  | zero =>
      intro remaining res offs hn hlen
      have hnil : remaining = [] := List.eq_nil_of_length_eq_zero (by omega)
      subst hnil
      rw [localReadLoop, dif_pos rfl]
      simp only [List.length_nil, Nat.add_zero] at hlen
      simp [List.take_of_length_le (Nat.le_of_eq hlen.symm)]
  | succ n ih =>
      intro remaining res offs hn hlen
      by_cases h : remaining = []
      · subst h
        rw [localReadLoop, dif_pos rfl]
        simp only [List.length_nil, Nat.add_zero] at hlen
        simp [List.take_of_length_le (Nat.le_of_eq hlen.symm)]
      · rw [localReadLoop, dif_neg h]
        have hpos : 0 < remaining.length := List.length_pos.mpr h
        have hB : 0 < readBlockSize := by norm_num [readBlockSize]
        by_cases hsmall : remaining.length ≤ readBlockSize
        · have hdrop : remaining.drop readBlockSize = [] :=
            List.drop_eq_nil_of_le hsmall
          have htake : remaining.take readBlockSize = remaining :=
            List.take_of_length_le hsmall
          simp only [hdrop, htake]
          rw [localReadLoop, dif_pos rfl]
          unfold writeAt
          have h1 : res.drop (offs + remaining.length) = [] := by
            apply List.drop_eq_nil_of_le
            omega
          rw [h1]
          simp
        · push_neg at hsmall
          have hofs : offs + readBlockSize ≤ res.length := by omega
          have hihlen : (offs + readBlockSize) +
              (remaining.drop readBlockSize).length =
              (writeAt res offs (remaining.take readBlockSize)).length := by
            unfold writeAt
            simp only [List.length_append, List.length_take, List.length_drop]
            omega
          have hihn : (remaining.drop readBlockSize).length ≤ n := by
            simp only [List.length_drop]
            omega
          rw [ih _ _ _ hihn hihlen]
          unfold writeAt
          have h2 : (res.take offs ++ remaining.take readBlockSize).length =
              offs + readBlockSize := by
            simp only [List.length_append, List.length_take]
            omega
          rw [List.take_left' h2, List.append_assoc, List.take_append_drop]

/-- `LocalClient.Read` returns the file's content unchanged (the
`offs += len(buffer)` advance is harmless for sequential full reads). -/
theorem localRead_eq (file : List Nat) : localRead file = file := by
  unfold localRead
  rw [localReadLoop_fills file.length file _ 0 le_rfl (by simp)]
  simp

/-- The removal check of `LocalClient.Write` is dead code: `os.IsExist` is
false both on `os.Stat`'s `nil` error (file present) and on its
`ErrNotExist` (file absent). -/
theorem removal_check_dead (pathExists : Bool) :
    osIsExist (osStatError pathExists) = false := by
  cases pathExists <;> rfl

/-- `LocalClient.Write` of the one-byte source over a larger pre-existing
destination: the old tail beyond the written 4096 bytes survives. -/
theorem localWrite_single7_over :
    localWrite [7] (some (List.replicate 5000 9)) =
      7 :: (List.replicate 4095 0 ++ List.replicate 904 9) := by
  unfold localWrite
  rw [localWriteBlocks_small [7] _ (by simp) (by norm_num [blockSize])]
  have hdrop : (List.replicate blockSize (0 : Nat)).drop [7].length =
      List.replicate 4095 0 := by
    rw [blockSize, List.drop_replicate]
    norm_num
  rw [hdrop, removal_check_dead]
  simp only [Bool.false_eq_true, if_false, Option.getD_some]
  have hlen : ([7] ++ List.replicate 4095 (0 : Nat)).length = 4096 := by
    simp only [List.length_append, List.length_cons, List.length_nil,
      List.length_replicate]
  rw [hlen]
  have hdrop2 : (List.replicate 5000 (9 : Nat)).drop 4096 =
      List.replicate 904 9 := by
    rw [List.drop_replicate]
  rw [hdrop2, List.singleton_append, List.cons_append]

/-- The whole output of `putSplitedFile` on a source of `limit + 1` bytes
of value 1: two parts, both a full buffer long, the second padded with the
stale bytes of the first chunk. -/
theorem putSplitedFile_replicate :
    putSplitedFile (List.replicate (limit + 1) 1) "dst" =
      [(getFullPath "dst" (partName 1), List.replicate limit 1),
       (getFullPath "dst" (partName 2), List.replicate limit 1)] := by
  unfold putSplitedFile
  have hne1 : List.replicate (limit + 1) (1 : Nat) ≠ [] := by
    intro hc
    have := congrArg List.length hc
    simp at this
  have e1 : (List.replicate (limit + 1) (1 : Nat)).take limit =
      List.replicate limit 1 := by
    rw [List.take_replicate]
    congr 1
  have e2 : (List.replicate limit (0 : Nat)).drop
      (List.replicate limit (1 : Nat)).length = [] := by
    simp [List.drop_replicate]
  have e3 : (List.replicate (limit + 1) (1 : Nat)).drop limit = [1] := by
    rw [List.drop_replicate]
    have h1 : limit + 1 - limit = 1 := by omega
    rw [h1, List.replicate_one]
  rw [splitUploads, dif_neg hne1]
  simp only [e1, e2, List.append_nil, e3]
  have hne2 : ([1] : List Nat) ≠ [] := by simp
  have e4 : ([1] : List Nat).take limit = [1] :=
    List.take_of_length_le (by norm_num [limit])
  have e5 : (List.replicate limit (1 : Nat)).drop ([1] : List Nat).length =
      List.replicate (limit - 1) 1 := by
    simp [List.drop_replicate]
  have e6 : ([1] : List Nat) ++ List.replicate (limit - 1) 1 =
      List.replicate limit 1 := by
    rw [List.singleton_append]
    conv_rhs => rw [show limit = (limit - 1) + 1 by norm_num [limit]]
    rw [List.replicate_succ]
  have e7 : ([1] : List Nat).drop limit = [] :=
    List.drop_eq_nil_of_le (by norm_num [limit])
  rw [splitUploads, dif_neg hne2]
  simp only [e4, e5, e6, e7]
  rw [splitUploads, dif_pos rfl]

/-! ## Theorems -/

/-- C2 counterexample: at a size exactly equal to the split threshold the
code takes the split path (`536870912 / limit = 1 > 0`), although the size
does not strictly exceed the threshold — refuting "delegates to the
chunked-upload strategy only when the size strictly exceeds that
threshold". -/
theorem writeDispatch_at_threshold_splits :
    writeDispatch 536870912 = WritePath.splitted ∧ ¬ (536870912 > 536870912) := by
  decide

/-- C2 (amended): `Write` uploads the whole file as one object exactly when
the size is strictly below the split threshold, and delegates to the
chunked-upload strategy exactly when the size is at or above it. -/
theorem writeDispatch_boundary (size : Nat) :
    (writeDispatch size = WritePath.once ↔ size < limit) ∧
    (writeDispatch size = WritePath.splitted ↔ limit ≤ size) := by
  have hpos : 0 < size / limit ↔ limit ≤ size :=
    Nat.div_pos_iff (by decide)
  unfold writeDispatch
  split
  · next h =>
      have hle := hpos.mp h
      constructor
      · constructor
        · intro hc; cases hc
        · intro hlt; omega
      · simp [hle]
  · next h =>
      have hlt : size < limit := by
        rcases Nat.lt_or_ge size limit with hl | hg
        · exact hl
        · exact absurd (hpos.mpr hg) h
      constructor
      · simp [hlt]
      · constructor
        · intro hc; cases hc
        · intro hge; omega

/-- C2 witness: the amended dispatch boundary at the byte just below the
threshold. -/
theorem writeDispatch_boundary_witness :
    (writeDispatch 536870911 = WritePath.once ↔ 536870911 < limit) ∧
    (writeDispatch 536870911 = WritePath.splitted ↔ limit ≤ 536870911) :=
  writeDispatch_boundary 536870911

/-- C4: when the response body delivers the bytes `[1, 2]` and then fails
with a transport error, `Read` returns the partial bytes with a `nil`
error — the transport error never surfaces to the caller. -/
theorem remoteRead_drops_transport_error :
    remoteRead [[1, 2]] BodyEnd.transportError = ([1, 2], none) ∧
    ∀ e : String, (remoteRead [[1, 2]] BodyEnd.transportError).2 ≠ some e := by
  constructor
  · rfl
  · intro e
    simp [remoteRead, remoteReadLoop]

/-- C4 witness: no `IOError` value is returned at the failing input. -/
theorem remoteRead_drops_transport_error_witness :
    (remoteRead [[1, 2]] BodyEnd.transportError).2 ≠ some "IOError" :=
  remoteRead_drops_transport_error.2 "IOError"

/-- C5: constructing the client with region `ru-central1` succeeds and
binds the session to `https://storage.yandexcloud.net`; constructing it
with any other region fails with the resolver's error. -/
theorem NewClient_endpoint_by_region :
    (∀ conf : ClientConfig, conf.region = "ru-central1" →
      ∃ c, NewClient conf = .ok c ∧
        c.endpoint.url = "https://storage.yandexcloud.net") ∧
    (∀ conf : ClientConfig, conf.region ≠ "ru-central1" →
      NewClient conf = .error "unknown endpoint requested") := by
  constructor
  · intro conf h
    have hr : yandexResolver s3ServiceID conf.region =
        .ok ⟨"yc", "https://storage.yandexcloud.net", "ru-central1"⟩ := by
      rw [h]; rfl
    refine ⟨⟨conf.bucketName, "/", conf.root,
      ⟨"yc", "https://storage.yandexcloud.net", "ru-central1"⟩⟩, ?_, rfl⟩
    simp [NewClient, hr]
  · intro conf h
    have hr : yandexResolver s3ServiceID conf.region =
        .error "unknown endpoint requested" := by
      unfold yandexResolver
      rw [if_neg]
      intro hc
      exact h hc.2
    simp [NewClient, hr]

/-- C5 witness: the two construction outcomes at concrete configurations. -/
theorem NewClient_endpoint_by_region_witness :
    (∃ c, NewClient ⟨"ru-central1", "k", "s", "bkt", "root"⟩ = .ok c ∧
      c.endpoint.url = "https://storage.yandexcloud.net") ∧
    NewClient ⟨"eu-west-1", "k", "s", "bkt", "root"⟩ =
      .error "unknown endpoint requested" :=
  ⟨NewClient_endpoint_by_region.1 _ rfl,
   NewClient_endpoint_by_region.2 _ (by decide)⟩

/-- C10: with an empty configured root every key construction inside `put`
panics (`cloudRoot[len(cloudRoot)-1]` indexes an empty string), and
`NewClient` performs no validation of the root: construction with an empty
root succeeds and stores it unchanged. -/
theorem emptyRoot_key_construction_panics :
    (∀ dst, makeKey "" dst = none) ∧
    (∀ conf : ClientConfig, conf.root = "" → conf.region = "ru-central1" →
      ∃ c, NewClient conf = .ok c ∧ c.cloudRoot = "") := by
  constructor
  · intro dst; rfl
  · intro conf hroot hregion
    have hr : yandexResolver s3ServiceID conf.region =
        .ok ⟨"yc", "https://storage.yandexcloud.net", "ru-central1"⟩ := by
      rw [hregion]; rfl
    refine ⟨⟨conf.bucketName, "/", conf.root,
      ⟨"yc", "https://storage.yandexcloud.net", "ru-central1"⟩⟩, ?_, hroot⟩
    simp [NewClient, hr]

/-- C10 witness: the panic and the unvalidated construction at concrete
inputs. -/
theorem emptyRoot_key_construction_panics_witness :
    makeKey "" "backup/db.zip" = none ∧
    ∃ c, NewClient ⟨"ru-central1", "k", "s", "bkt", ""⟩ = .ok c ∧
      c.cloudRoot = "" :=
  ⟨emptyRoot_key_construction_panics.1 _,
   emptyRoot_key_construction_panics.2 _ rfl rfl⟩

/-- C7: for every non-empty configured root and every destination, the key
construction of `put` agrees with the spec's normalizer (strip one
trailing separator from the root, convert the destination's backslashes,
join with a single `/`), and in particular root `"a/b/"` with destination
`"c\d.txt"` yields the key `"a/b/c/d.txt"`. -/
theorem makeKey_matches_specNormalize :
    (∀ root dst : String, root ≠ "" →
      makeKey root dst = some (specNormalize root dst)) ∧
    makeKey "a/b/" "c\\d.txt" = some "a/b/c/d.txt" := by
  constructor
  · intro root dst h
    have hd : root.data ≠ [] := by
      intro hnil
      apply h
      cases root
      simp_all
    unfold makeKey specNormalize
    cases hg : root.data.getLast? with
    | none =>
        exact absurd (by simpa using List.getLast?_eq_none_iff.mp hg) hd
    | some c =>
        simp only [Option.some.injEq]
        by_cases h1 : c = '\\' <;> by_cases h2 : c = '/' <;>
          simp [h1, h2, replaceBackslash]
  · decide

/-- C7 witness: the general normalizer agreement applied at a concrete
non-empty root. -/
theorem makeKey_matches_specNormalize_witness :
    makeKey "store" "x\\y" = some (specNormalize "store" "x\\y") :=
  makeKey_matches_specNormalize.1 "store" "x\\y" (by decide)

/-- C8: listing is asymmetric — the local `Ls` fails whenever the path is
missing or is not a directory, while the remote `Ls` returns the empty
sequence on an empty listing and otherwise one entry per object key whose
final `/`-separated segment is nonempty, named by that segment. -/
theorem ls_asymmetry :
    localLs .missing = .error .statError ∧
    localLs .file = .error .notADirectory ∧
    remoteLs [] = [] ∧
    ∀ contents : List S3Object,
      remoteLs contents =
        (contents.filter fun o => lastSegment o.key ≠ "").map
          fun o => { name := lastSegment o.key, date := o.lastModified } := by
  refine ⟨rfl, rfl, rfl, ?_⟩
  intro contents
  induction contents with
  | nil => rfl
  | cons o os ih =>
      simp only [remoteLs, lastSegment, List.getLastD_eq_getLast?] at *
      by_cases h : (o.key.splitOn "/").getLast?.getD "" = ""
      · simp [List.filterMap_cons, List.filter_cons, h, ih]
      · simp [List.filterMap_cons, List.filter_cons, h, ih]

/-- C8 witness: the remote listing law at a concrete response holding a
file key and a directory-marker key. -/
theorem ls_asymmetry_witness :
    remoteLs [⟨"root/a.txt", 5⟩, ⟨"root/", 6⟩] =
      (([⟨"root/a.txt", 5⟩, ⟨"root/", 6⟩] : List S3Object).filter
          fun o => lastSegment o.key ≠ "").map
        fun o => { name := lastSegment o.key, date := o.lastModified } :=
  ls_asymmetry.2.2.2 [⟨"root/a.txt", 5⟩, ⟨"root/", 6⟩]

/-- C9: `Remove` never fails, in particular on an absent key and on a
second removal of the same key, and removing twice leaves the same state
as removing once — for both backends. -/
theorem remove_idempotent :
    (∀ tree path, (localRemove tree path).2 = none) ∧
    (∀ bucket key, (remoteRemove bucket key).2 = none) ∧
    (∀ tree path,
      localRemove (localRemove tree path).1 path = localRemove tree path) ∧
    (∀ bucket key,
      remoteRemove (remoteRemove bucket key).1 key = remoteRemove bucket key) := by
  refine ⟨fun _ _ => rfl, fun _ _ => rfl, ?_, ?_⟩
  · intro tree path
    simp [localRemove, List.filter_filter]
  · intro bucket key
    simp [remoteRemove, List.filter_filter]

/-- C9 witness: double removal at a concrete tree, bucket and key. -/
theorem remove_idempotent_witness :
    localRemove (localRemove ["a", "a/x", "b"] "a").1 "a" =
      localRemove ["a", "a/x", "b"] "a" ∧
    remoteRemove (remoteRemove ["k", "m"] "k").1 "k" =
      remoteRemove ["k", "m"] "k" :=
  ⟨remove_idempotent.2.2.1 ["a", "a/x", "b"] "a",
   remove_idempotent.2.2.2 ["k", "m"] "k"⟩

/-- C1: on a source of `limit + 1` bytes the chunked upload does produce
`ceil(size / limit)` parts under the zero-padded sequential keys, but the
concatenation of the uploaded parts is NOT the source: every part is
written as the whole `limit`-byte buffer (`fd.Write(buf)` instead of
`buf[:n]`), so the final part carries stale padding. -/
theorem splitUpload_concat_mismatch :
    ((putSplitedFile (List.replicate (limit + 1) 1) "dst").length =
      ((limit + 1) + limit - 1) / limit) ∧
    ((putSplitedFile (List.replicate (limit + 1) 1) "dst").map Prod.fst =
      ["dst/zip.001", "dst/zip.002"]) ∧
    ((putSplitedFile (List.replicate (limit + 1) 1) "dst").map
        Prod.snd).flatten ≠ List.replicate (limit + 1) 1 := by
  refine ⟨?_, ?_, ?_⟩
  · rw [putSplitedFile_replicate]
    norm_num [limit]
  · rw [putSplitedFile_replicate]
    decide
  · rw [putSplitedFile_replicate]
    intro hc
    have h := congrArg List.length hc
    simp only [List.map_cons, List.map_nil, List.flatten_cons,
      List.flatten_nil, List.length_append, List.length_replicate,
      List.append_nil, List.length_nil] at h
    norm_num [limit] at h

/-- C3: `LocalClient.Write` does not leave the destination byte-for-byte
equal to the source: a one-byte source on a fresh destination yields 4096
bytes (the whole buffer is written), a larger pre-existing destination
keeps its tail (the `os.IsExist` removal check never fires), and that
check is false on every `os.Stat` outcome. -/
theorem localWrite_not_source_equal :
    localWrite [7] none = 7 :: List.replicate 4095 0 ∧
    localWrite [7] (some (List.replicate 5000 9)) =
      7 :: (List.replicate 4095 0 ++ List.replicate 904 9) ∧
    localWrite [7] none ≠ [7] ∧
    ∀ pathExists : Bool, osIsExist (osStatError pathExists) = false := by
  refine ⟨localWrite_single7, localWrite_single7_over, ?_, ?_⟩
  · rw [localWrite_single7]
    exact pad_ne_single
  · intro pathExists
    cases pathExists <;> rfl

/-- C3 witness: the dead removal check evaluated at a present destination. -/
theorem localWrite_not_source_equal_witness :
    osIsExist (osStatError true) = false :=
  localWrite_not_source_equal.2.2.2 true

/-- C6: the local round-trip law fails — `Read` after a successful `Write`
of a fresh one-byte file returns the 4096-byte padded content, not the
source (`Read` itself is faithful; the corruption comes from `Write`). -/
theorem localRead_after_write_not_roundtrip :
    localRead (localWrite [7] none) = 7 :: List.replicate 4095 0 ∧
    localRead (localWrite [7] none) ≠ [7] := by
  constructor
  · rw [localWrite_single7, localRead_eq]
  · rw [localWrite_single7, localRead_eq]
    exact pad_ne_single

end Backilli
